import Mathlib

/-!
Verification of the secret-copier reconciliation core (`seccop.go`, current
version: the third file in the concatenated source, lines 414-747).

Modelling conventions:
- A Go `map` is modelled as an association list (`GoMap`); the list order
  stands for one possible iteration order of the map (Go map iteration order
  is unspecified).  `mapInsert`/`mapErase`/`mapLookup` model Go map
  assignment, `delete` and indexing.
- Byte-sequence values (`[]uint8`) are modelled as `String`s of their bytes:
  `fmt.Fprintf` with `%s` writes the raw bytes, so serialization behaves
  identically.
- The orchestration store is `KStore`: a map from (namespace, name) to the
  stored secret, plus a set `failGet` of keys on which `Get` fails with an
  error other than not-found.  The Go code branches only on `err != nil`,
  so `GetResult.notFound` and `GetResult.otherErr` are handled alike by
  `secretCopy`.  `Create`/`Update` errors are only logged in the code and
  never change control flow, so the store model applies them.
- `highwayhash` is keyed with a single process-lifetime key, hence it is a
  deterministic function of the serialized bytes within one run; digest
  comparison is modelled at the serialization level (equal byte buffers give
  equal hex checksum strings).
- `secretCopy` receives the observed secret by pointer in Go and, through
  `newAnnotations := secret.ObjectMeta.GetAnnotations()` (an alias of the
  source object's own annotation map), mutates the source; the model makes
  this explicit by returning the post-call source secret.
-/

/-- A Go `map` modelled as an association list; the order is one possible
iteration order. -/
abbrev GoMap (κ α : Type) : Type := List (κ × α)

/-- Go map indexing `m[k]`: the first binding of `k`, if any. -/
def mapLookup [DecidableEq κ] : GoMap κ α → κ → Option α
  | [], _ => none
  | (k', v) :: rest, k => if k' = k then some v else mapLookup rest k

/-- Go `delete(m, k)`: remove every binding of `k`. -/
def mapErase [DecidableEq κ] : GoMap κ α → κ → GoMap κ α
  | [], _ => []
  | (k', v) :: rest, k =>
    if k' = k then mapErase rest k else (k', v) :: mapErase rest k

/-- Go map assignment `m[k] = v`: `k` becomes bound to `v`. -/
def mapInsert [DecidableEq κ] (m : GoMap κ α) (k : κ) (v : α) : GoMap κ α :=
  mapErase m k ++ [(k, v)]

/-- The keys of a map, in iteration order (Go `for k := range m`). -/
def mapKeys (m : GoMap κ α) : List κ :=
  m.map Prod.fst

/-- A `corev1.Secret` restricted to the fields the program touches.  The
field `ns` is `ObjectMeta.Namespace` (a Lean keyword forces the rename);
`data` is the `map[string][]byte` payload with byte slices modelled as
strings of bytes. -/
structure Secret where
  ns : String
  name : String
  labels : GoMap String String
  annots : GoMap String String
  data : GoMap String String
  resourceVersion : String
  selfLink : String
  uid : String
deriving DecidableEq

/-- CopierLabel for secrets in need of copying (seccop.go:442). -/
def CopierLabel : String := "secret-copier"

/-- The clone-origin annotation key, written literally in the source
(seccop.go:688, 709). -/
def originKey : String := "secret-copier/origin"

/-- The provenance annotation removed from replicas (seccop.go:704). -/
def lastAppliedKey : String := "kubectl.kubernetes.io/last-applied-configuration"

/-- Models `keysToByte` (seccop.go:611-617): serialize the data payload by
appending `key="value";` for each entry in map iteration order.  No sorting
of keys is performed. -/
def keysToByte (data : GoMap String String) : String :=
  data.foldl (fun b p => b ++ p.1 ++ "=\"" ++ p.2 ++ "\";") ""

/-- Models `secretsDataEqual` (seccop.go:619-657): both payloads are
serialized with `keysToByte` and hashed with the same keyed highwayhash
instance; the hex checksum strings are compared.  Equal serializations give
equal checksums, and differing serializations are modelled as differing
digests.  Each secret's `data` list carries that map object's own iteration
order: Go randomizes the order per range loop, and a replica fetched back
from the store is a different map object, so two secrets of equal content
need not serialize — and hence need not compare — equal. -/
def secretsDataEqual (one two : Secret) : Bool :=
  keysToByte one.data == keysToByte two.data

/-- Models `secretListAdd` (seccop.go:659-667): fetch (or create) the inner
set for `ns` and bind `name` to 1 in it. -/
def secretListAdd (m : GoMap String (GoMap String Nat)) (ns name : String) :
    GoMap String (GoMap String Nat) :=
  let mm := (mapLookup m ns).getD []
  mapInsert m ns (mapInsert mm name 1)

/-- Models `secretListDel` (seccop.go:669-675): `delete(m[ns], name)`, then
if `len(m[ns]) == 0` also `delete(m, ns)`.  A `delete` on an absent inner
map is a no-op with length 0, exactly as in Go. -/
def secretListDel (m : GoMap String (GoMap String Nat)) (ns name : String) :
    GoMap String (GoMap String Nat) :=
  let inner := (mapLookup m ns).getD []
  let inner' := mapErase inner name
  let m' := if (mapLookup m ns).isSome then mapInsert m ns inner' else m
  if inner'.length = 0 then mapErase m' ns else m'

/-- The two global registries (seccop.go:450-458): `nslist.m` and
`secretlist.m`. -/
structure Registries where
  nslist : GoMap String Nat
  secretlist : GoMap String (GoMap String Nat)
deriving DecidableEq

/-- Result of a store `Get` call: found, not-found, or any other error.
The Go code only inspects `err != nil`, merging the last two cases. -/
inductive GetResult
  | found (s : Secret)
  | notFound
  | otherErr
deriving DecidableEq

/-- True when the get did not return an object (`err != nil` in Go). -/
def GetResult.isErr : GetResult → Bool
  | .found _ => false
  | .notFound => true
  | .otherErr => true

/-- The orchestration store visible to one run: stored objects keyed by
(namespace, name), and the keys on which `Get` fails with a non-not-found
error. -/
structure KStore where
  objs : GoMap (String × String) Secret
  failGet : List (String × String)
deriving DecidableEq

/-- Behaviour of `clientSecret.Get(name, ...)` against namespace `tns`. -/
def storeGet (st : KStore) (tns nm : String) : GetResult :=
  if (tns, nm) ∈ st.failGet then .otherErr
  else
    match mapLookup st.objs (tns, nm) with
    | some s => .found s
    | none => .notFound

/-- One call issued to the orchestration store. -/
inductive StoreCall
  | get (tns nm : String)
  | create (tns : String) (s : Secret)
  | update (tns : String) (s : Secret)
deriving DecidableEq

/-- Create and update calls mutate the store; get does not. -/
def StoreCall.isMutating : StoreCall → Bool
  | .get _ _ => false
  | .create _ _ => true
  | .update _ _ => true

/-- Number of create calls in a call list. -/
def createCount (c : List StoreCall) : Nat :=
  c.countP fun call =>
    match call with
    | .create _ _ => true
    | _ => false

/-- Number of update calls in a call list. -/
def updateCount (c : List StoreCall) : Nat :=
  c.countP fun call =>
    match call with
    | .update _ _ => true
    | _ => false

/-- Exactly one of create, update, or no-op happened in a call list. -/
def exactlyOneOutcome (c : List StoreCall) : Prop :=
  (createCount c = 1 ∧ updateCount c = 0) ∨
  (createCount c = 0 ∧ updateCount c = 1) ∨
  (createCount c = 0 ∧ updateCount c = 0)

instance (c : List StoreCall) : Decidable (exactlyOneOutcome c) := by
  unfold exactlyOneOutcome
  infer_instance

/-- All store calls of a per-namespace trace list, in order. -/
def allCalls (traces : List (String × List StoreCall)) : List StoreCall :=
  traces.foldr (fun p acc => p.2 ++ acc) []

/-- The annotation map produced in seccop.go:703-709: starting from the
source secret's own map, `delete` the last-applied key and set the
clone-origin key to `"clone"`.  In the source this map is the very map of
the observed secret (aliasing), and it is then installed on the replica. -/
def cloneAnnots (secret : Secret) : GoMap String String :=
  mapInsert (mapErase secret.annots lastAppliedKey) originKey "clone"

/-- The replica built in seccop.go:696-710: deep copy of the source,
namespace retargeted, ResourceVersion / SelfLink / UID cleared, and the
mutated annotation map installed via `SetAnnotations`. -/
def buildReplica (secret : Secret) (targetNamespace : String) : Secret :=
  { secret with
      ns := targetNamespace
      resourceVersion := ""
      selfLink := ""
      uid := ""
      annots := cloneAnnots secret }

/-- Models `secretCopy` (seccop.go:677-747).  Returns the post-call source
secret (the aliasing in lines 703-710 mutates the observed object's
annotation map), the post-call store, and the list of store calls issued.
When the clone-origin key is absent its value reads as the zero string, so
the `origin != "clone"` guard of line 692 always passes.  The `Get` branch
is `err != nil` (line 718): not-found and any other get error both lead to
the create path. -/
def secretCopy (secret : Secret) (st : KStore) (targetNamespace : String) :
    Secret × KStore × List StoreCall :=
  match mapLookup secret.annots originKey with
  | some _ => (secret, st, [])
  | none =>
    if ("" : String) = "clone" then (secret, st, [])
    else
      let newSecret := buildReplica secret targetNamespace
      let secret' : Secret := { secret with annots := cloneAnnots secret }
      match storeGet st targetNamespace newSecret.name with
      | .found existSecret =>
        if secretsDataEqual newSecret existSecret then
          (secret', st, [.get targetNamespace newSecret.name])
        else
          (secret',
           { st with objs := mapInsert st.objs (targetNamespace, newSecret.name) newSecret },
           [.get targetNamespace newSecret.name, .update targetNamespace newSecret])
      | _ =>
        (secret',
         { st with objs := mapInsert st.objs (targetNamespace, newSecret.name) newSecret },
         [.get targetNamespace newSecret.name, .create targetNamespace newSecret])

/-- The loop of seccop.go:560-563: run `secretCopy` for each namespace of
the registry snapshot in turn, threading the (possibly mutated) source
secret and the store, and recording the calls made for each namespace. -/
def copyLoop (secret : Secret) (st : KStore) :
    List String → Secret × KStore × List (String × List StoreCall)
  | [] => (secret, st, [])
  | tns :: rest =>
    let step := secretCopy secret st tns
    let restRun := copyLoop step.1 step.2.1 rest
    (restRun.1, restRun.2.1, (tns, step.2.2) :: restRun.2.2)

/-- Models `onAddSecret` (seccop.go:548-565): when the copier label is
present, record the secret in the secret registry and run `secretCopy` for
every namespace in the namespace registry; otherwise do nothing. -/
def onAddSecret (secret : Secret) (regs : Registries) (st : KStore) :
    Secret × Registries × KStore × List (String × List StoreCall) :=
  if (mapLookup secret.labels CopierLabel).isSome then
    let regs' : Registries :=
      { regs with secretlist := secretListAdd regs.secretlist secret.ns secret.name }
    let run := copyLoop secret st (mapKeys regs.nslist)
    (run.1, regs', run.2.1, run.2.2)
  else (secret, regs, st, [])

/-- Models `onAddNamespace` (seccop.go:567-573): `nslist.m[name] = 1`. -/
def onAddNamespace (nm : String) (regs : Registries) : Registries :=
  { regs with nslist := mapInsert regs.nslist nm 1 }

/-- Models `onDelNamespace` (seccop.go:583-591): `delete(nslist.m, name)`. -/
def onDelNamespace (nm : String) (regs : Registries) : Registries :=
  { regs with nslist := mapErase regs.nslist nm }

/-- Models `onDelSecret` (seccop.go:575-581): `secretListDel`. -/
def onDelSecret (secret : Secret) (regs : Registries) : Registries :=
  { regs with secretlist := secretListDel regs.secretlist secret.ns secret.name }

/-! Lock-discipline model of the four event handlers.  Each handler is
abstracted to the sequence of lock operations and registry mutations it
performs, read off the source; reads of the registries are omitted since
the claim under scrutiny is about mutations. -/

/-- The two registries as lock-discipline subjects: `nslist` and
`secretlist` (seccop.go:450-458), each embedding a `sync.RWMutex`. -/
inductive Reg
  | nsReg
  | secReg
deriving DecidableEq

/-- One lock-relevant event of a handler body. -/
inductive SyncEvt
  | rlock (r : Reg)
  | runlock (r : Reg)
  | wlock (r : Reg)
  | wunlock (r : Reg)
  | mutate (r : Reg)
deriving DecidableEq

/-- Lock-relevant trace of `onAddSecret` (seccop.go:548-565): the
`secretListAdd` call on line 554 mutates `secretlist.m` with no lock
acquired. -/
def onAddSecretSyncTrace : List SyncEvt := [.mutate .secReg]

/-- Lock-relevant trace of `onAddNamespace` (seccop.go:567-573): the
assignment `nslist.m[name] = 1` on line 571 runs with no lock acquired. -/
def onAddNamespaceSyncTrace : List SyncEvt := [.mutate .nsReg]

/-- Lock-relevant trace of `onDelSecret` (seccop.go:575-581): the
`secretListDel` call on line 579 mutates `secretlist.m` with no lock
acquired. -/
def onDelSecretSyncTrace : List SyncEvt := [.mutate .secReg]

/-- Lock-relevant trace of `onDelNamespace` (seccop.go:583-591): the
`delete(nslist.m, ...)` on line 588 runs between `nslist.RLock()` and
`nslist.RUnlock()` — a read lock, not the write lock. -/
def onDelNamespaceSyncTrace : List SyncEvt :=
  [.rlock .nsReg, .mutate .nsReg, .runlock .nsReg]

/-- Walk a trace tracking the write locks currently held; every mutation of
a registry must occur while that registry's write lock is held. -/
def wlockedAux : List SyncEvt → List Reg → Bool
  | [], _ => true
  | .wlock r :: rest, held => wlockedAux rest (r :: held)
  | .wunlock r :: rest, held => wlockedAux rest (held.erase r)
  | .mutate r :: rest, held => decide (r ∈ held) && wlockedAux rest held
  | .rlock _ :: rest, held => wlockedAux rest held
  | .runlock _ :: rest, held => wlockedAux rest held

/-- Every registry mutation in the trace happens under that registry's
write lock (mutual exclusion against readers and writers). -/
def mutationsWriteLocked (tr : List SyncEvt) : Bool :=
  wlockedAux tr []

/-! Concrete sample values used by witnesses and counterexamples. -/

/-- A tagged secret as in end-to-end scenario A of the spec. -/
def sampleSecret : Secret :=
  { ns := "default"
    name := "db-cred"
    labels := [("secret-copier", "")]
    annots := [("team", "a")]
    data := [("user", "a")]
    resourceVersion := "42"
    selfLink := "/api/v1/namespaces/default/secrets/db-cred"
    uid := "u-1" }

/-- An empty store with no injected get failures. -/
def emptyStore : KStore :=
  { objs := [], failGet := [] }

/-- A registry snapshot knowing the single namespace `team-a`. -/
def sampleRegs : Registries :=
  { nslist := [("team-a", 1)], secretlist := [] }

/-- A source secret carrying a last-applied annotation, used to exhibit the
mutation of the observed object's annotation map. -/
def aliasedSecret : Secret :=
  { sampleSecret with
      annots := [("kubectl.kubernetes.io/last-applied-configuration", "x")] }

/-- A store on which `Get("production", "db-cred")` fails with an error
other than not-found. -/
def failingStore : KStore :=
  { objs := [], failGet := [("production", "db-cred")] }

/-- The payload `{u: a, v: b}` yielded in the order u, v. -/
def payloadUV : GoMap String String := [("u", "a"), ("v", "b")]

/-- The payload `{u: a, v: b}` yielded in the order v, u. -/
def payloadVU : GoMap String String := [("v", "b"), ("u", "a")]

/-- A secret already carrying the clone-origin annotation (a replica). -/
def cloneMarkedSecret : Secret :=
  { sampleSecret with annots := [("secret-copier/origin", "clone")] }

/-- A secret without the copier label. -/
def unlabeledSecret : Secret :=
  { sampleSecret with labels := [("app", "web")] }

/-- An eligible secret whose payload has two keys, yielded user-first by
the source map. -/
def twoKeySecret : Secret :=
  { sampleSecret with data := [("user", "a"), ("pass", "b")] }

/-- The stored replica of `twoKeySecret` as fetched back on a later
observation: identical content, but the fetched map — an independent map
object with its own randomized iteration order — yields its keys in the
other order. -/
def permutedReplica : Secret :=
  { buildReplica twoKeySecret "team-a" with data := [("pass", "b"), ("user", "a")] }

/-- A store already holding that replica under (team-a, db-cred), as after
a first observation's create. -/
def replicaStore : KStore :=
  { objs := [(("team-a", "db-cred"), permutedReplica)], failGet := [] }

/-! Lemmas about the Go map model. -/

theorem mapLookup_append [DecidableEq κ] (m₁ m₂ : GoMap κ α) (k : κ) :
    mapLookup (m₁ ++ m₂) k =
      match mapLookup m₁ k with
      | some v => some v
      | none => mapLookup m₂ k := by
  induction m₁ with
  | nil => rfl
  | cons p rest ih =>
    rcases p with ⟨k', v⟩
    by_cases h : k' = k <;> simp [mapLookup, h, ih]

theorem mapLookup_erase_self [DecidableEq κ] (m : GoMap κ α) (k : κ) :
    mapLookup (mapErase m k) k = none := by
  induction m with
  | nil => rfl
  | cons p rest ih =>
    rcases p with ⟨k', v⟩
    by_cases h : k' = k <;> simp [mapErase, mapLookup, h, ih]

theorem mapLookup_erase_ne [DecidableEq κ] (m : GoMap κ α) (k k' : κ)
    (h : k' ≠ k) : mapLookup (mapErase m k) k' = mapLookup m k' := by
  induction m with
  | nil => rfl
  | cons p rest ih =>
    rcases p with ⟨k₀, v⟩
    by_cases h₀ : k₀ = k
    · subst h₀
      simp [mapErase, mapLookup, ih, Ne.symm h]
    · simp [mapErase, mapLookup, h₀, ih]

theorem mapLookup_insert_self [DecidableEq κ] (m : GoMap κ α) (k : κ) (v : α) :
    mapLookup (mapInsert m k v) k = some v := by
  unfold mapInsert
  rw [mapLookup_append, mapLookup_erase_self]
  simp [mapLookup]

theorem mapLookup_insert_ne [DecidableEq κ] (m : GoMap κ α) (k k' : κ) (v : α)
    (h : k' ≠ k) : mapLookup (mapInsert m k v) k' = mapLookup m k' := by
  unfold mapInsert
  rw [mapLookup_append, mapLookup_erase_ne m k k' h]
  cases hm : mapLookup m k' with
  | some w => rfl
  | none => simp [mapLookup, Ne.symm h]

theorem mapErase_append [DecidableEq κ] (m₁ m₂ : GoMap κ α) (k : κ) :
    mapErase (m₁ ++ m₂) k = mapErase m₁ k ++ mapErase m₂ k := by
  induction m₁ with
  | nil => rfl
  | cons p rest ih =>
    rcases p with ⟨k', v⟩
    by_cases h : k' = k <;> simp [mapErase, h, ih]

theorem mapErase_erase_self [DecidableEq κ] (m : GoMap κ α) (k : κ) :
    mapErase (mapErase m k) k = mapErase m k := by
  induction m with
  | nil => rfl
  | cons p rest ih =>
    rcases p with ⟨k', v⟩
    by_cases h : k' = k <;> simp [mapErase, h, ih]

theorem mapErase_insert_self [DecidableEq κ] (m : GoMap κ α) (k : κ) (v : α) :
    mapErase (mapInsert m k v) k = mapErase m k := by
  unfold mapInsert
  rw [mapErase_append, mapErase_erase_self]
  simp [mapErase]

/-! Lemmas about `secretCopy` and the fan-out loop. -/

theorem buildReplica_name (secret : Secret) (tns : String) :
    (buildReplica secret tns).name = secret.name := rfl

/-- Complete case analysis of one `secretCopy` run: skip, no-op on equal
fingerprints, create on a failed get, or update on differing fingerprints. -/
theorem secretCopy_cases (secret : Secret) (st : KStore) (tns : String) :
    secretCopy secret st tns = (secret, st, []) ∨
    (mapLookup secret.annots originKey = none ∧
      (secretCopy secret st tns =
        ({ secret with annots := cloneAnnots secret }, st,
         [.get tns secret.name]) ∨
       secretCopy secret st tns =
        ({ secret with annots := cloneAnnots secret },
         { st with objs := mapInsert st.objs (tns, secret.name) (buildReplica secret tns) },
         [.get tns secret.name, .create tns (buildReplica secret tns)]) ∨
       secretCopy secret st tns =
        ({ secret with annots := cloneAnnots secret },
         { st with objs := mapInsert st.objs (tns, secret.name) (buildReplica secret tns) },
         [.get tns secret.name, .update tns (buildReplica secret tns)]))) := by
  rcases ha : mapLookup secret.annots originKey with _ | v
  · refine Or.inr ⟨rfl, ?_⟩
    rcases hg : storeGet st tns secret.name with ex | _ | _
    · by_cases he : secretsDataEqual (buildReplica secret tns) ex
      · exact Or.inl (by simp [secretCopy, buildReplica_name, ha, hg, he])
      · exact Or.inr (Or.inr (by simp [secretCopy, buildReplica_name, ha, hg, he]))
    · exact Or.inr (Or.inl (by simp [secretCopy, buildReplica_name, ha, hg]))
    · exact Or.inr (Or.inl (by simp [secretCopy, buildReplica_name, ha, hg]))
  · exact Or.inl (by simp [secretCopy, ha])

/-- A secret already carrying the clone-origin annotation is skipped. -/
theorem secretCopy_skip (secret : Secret) (st : KStore) (tns : String)
    (h : (mapLookup secret.annots originKey).isSome = true) :
    secretCopy secret st tns = (secret, st, []) := by
  rcases ha : mapLookup secret.annots originKey with _ | v
  · rw [ha] at h
    simp at h
  · simp [secretCopy, ha]

/-- When the source is unmarked and the get fails (not-found or any other
error), `secretCopy` issues exactly a get followed by a create. -/
theorem secretCopy_err_run (secret : Secret) (st : KStore) (tns : String)
    (horig : mapLookup secret.annots originKey = none)
    (herr : (storeGet st tns secret.name).isErr = true) :
    secretCopy secret st tns =
      ({ secret with annots := cloneAnnots secret },
       { st with objs := mapInsert st.objs (tns, secret.name) (buildReplica secret tns) },
       [.get tns secret.name, .create tns (buildReplica secret tns)]) := by
  rcases hg : storeGet st tns secret.name with ex | _ | _
  · rw [hg] at herr
    simp [GetResult.isErr] at herr
  · simp [secretCopy, buildReplica_name, horig, hg]
  · simp [secretCopy, buildReplica_name, horig, hg]

/-- When the source is unmarked, the get finds an object and the
fingerprints agree, `secretCopy` issues only the get. -/
theorem secretCopy_found_equal_run (secret : Secret) (st : KStore)
    (tns : String) (ex : Secret)
    (horig : mapLookup secret.annots originKey = none)
    (hfound : storeGet st tns secret.name = .found ex)
    (heq : secretsDataEqual (buildReplica secret tns) ex = true) :
    secretCopy secret st tns =
      ({ secret with annots := cloneAnnots secret }, st,
       [.get tns secret.name]) := by
  simp [secretCopy, buildReplica_name, horig, hfound, heq]

/-- Every single `secretCopy` run performs exactly one of create, update or
no store mutation. -/
theorem secretCopy_outcome (secret : Secret) (st : KStore) (tns : String) :
    exactlyOneOutcome (secretCopy secret st tns).2.2 := by
  rcases secretCopy_cases secret st tns with h | ⟨-, h | h | h⟩ <;>
    simp [h, exactlyOneOutcome, createCount, updateCount]

/-- The fan-out loop visits exactly the namespaces of the snapshot, in
order. -/
theorem copyLoop_keys (l : List String) :
    ∀ (s : Secret) (st : KStore),
      ((copyLoop s st l).2.2).map Prod.fst = l := by
  induction l with
  | nil => intro s st; rfl
  | cons tns rest ih => intro s st; simp [copyLoop, ih]

/-- Every per-namespace trace of the fan-out loop has exactly one of the
three outcomes. -/
theorem copyLoop_outcome (l : List String) :
    ∀ (s : Secret) (st : KStore),
      ∀ p ∈ (copyLoop s st l).2.2, exactlyOneOutcome p.2 := by
  induction l with
  | nil => intro s st p hp; simp [copyLoop] at hp
  | cons tns rest ih =>
    intro s st p hp
    simp only [copyLoop, List.mem_cons] at hp
    rcases hp with h | h
    · rw [h]
      exact secretCopy_outcome s st tns
    · exact ih _ _ p h

/-- A clone-marked source is skipped for every namespace of the loop. -/
theorem copyLoop_skip (l : List String) :
    ∀ (s : Secret) (st : KStore),
      (mapLookup s.annots originKey).isSome = true →
      copyLoop s st l = (s, st, l.map fun tns => (tns, [])) := by
  induction l with
  | nil => intro s st _; rfl
  | cons tns rest ih =>
    intro s st h
    simp [copyLoop, secretCopy_skip s st tns h, ih s st h]

/-- Flattening a trace list of empty call lists yields no calls. -/
theorem allCalls_nilmap (l : List String) :
    allCalls (l.map fun tns => (tns, ([] : List StoreCall))) = [] := by
  induction l with
  | nil => rfl
  | cons tns rest ih => simp [allCalls, List.map_cons] at ih ⊢; exact ih

/-! Claim theorems. -/

/-- C1: for every eligible secret (carrying the replication label and not
the clone-origin annotation) observed via `onAddSecret`, and for every
namespace present in the namespace-registry snapshot at observation time,
`secretCopy` is invoked, and exactly one of create, update or no-op occurs
for that (secret, target namespace) pair — never more than one
store-mutating call per pair per observation. -/
theorem C1_fanout_exactly_one_outcome_per_pair
    (secret : Secret) (regs : Registries) (st : KStore)
    (hlab : (mapLookup secret.labels CopierLabel).isSome = true)
    (horig : mapLookup secret.annots originKey = none) :
    ((onAddSecret secret regs st).2.2.2).map Prod.fst = mapKeys regs.nslist ∧
    ∀ p ∈ (onAddSecret secret regs st).2.2.2, exactlyOneOutcome p.2 := by
  unfold onAddSecret
  simp only [hlab, if_true]
  exact ⟨copyLoop_keys _ _ _, copyLoop_outcome _ _ _⟩

/-- Witness for C1 at a concrete eligible secret, registry and store. -/
theorem C1_witness :
    ((onAddSecret sampleSecret sampleRegs emptyStore).2.2.2).map Prod.fst =
      mapKeys sampleRegs.nslist ∧
    ∀ p ∈ (onAddSecret sampleSecret sampleRegs emptyStore).2.2.2,
      exactlyOneOutcome p.2 :=
  C1_fanout_exactly_one_outcome_per_pair sampleSecret sampleRegs emptyStore
    (by decide) (by decide)

/-- C2 counterexample: `secretCopy` does mutate the observed source secret.
The alias `newAnnotations := secret.ObjectMeta.GetAnnotations()`
(seccop.go:703) is the source object's own annotation map, so the delete of
the last-applied key and the insertion of the clone-origin key are visible
on the source after the call. -/
theorem C2_counterexample_source_annots_mutated :
    ((secretCopy aliasedSecret emptyStore "production").1).annots ≠
      aliasedSecret.annots := by
  decide

/-- C2 (amended): `secretCopy` has no side effects beyond the single
create-or-update store call, logging, and the in-place mutation of the
source secret's annotation map (shared with the replica): the source's
other fields are unchanged, its annotation map is either untouched (skip
path) or becomes the clone annotation map, the store changes at most at the
(target namespace, secret name) key, and at most one store-mutating call is
issued. -/
theorem C2_amended_single_call_and_aliased_source
    (secret : Secret) (st : KStore) (tns : String) :
    ((secretCopy secret st tns).1.name = secret.name) ∧
    ((secretCopy secret st tns).1.ns = secret.ns) ∧
    ((secretCopy secret st tns).1.labels = secret.labels) ∧
    ((secretCopy secret st tns).1.data = secret.data) ∧
    ((secretCopy secret st tns).1.resourceVersion = secret.resourceVersion) ∧
    ((secretCopy secret st tns).1.selfLink = secret.selfLink) ∧
    ((secretCopy secret st tns).1.uid = secret.uid) ∧
    ((secretCopy secret st tns).1.annots = secret.annots ∨
      (secretCopy secret st tns).1.annots = cloneAnnots secret) ∧
    ((secretCopy secret st tns).2.1.failGet = st.failGet) ∧
    (mapErase (secretCopy secret st tns).2.1.objs (tns, secret.name) =
      mapErase st.objs (tns, secret.name)) ∧
    ((secretCopy secret st tns).2.2.countP StoreCall.isMutating ≤ 1) := by
  rcases secretCopy_cases secret st tns with h | ⟨-, h | h | h⟩ <;>
    simp [h, StoreCall.isMutating, mapErase_insert_self]

/-- C3: for every secret whose annotations contain the clone-origin marker
key, `onAddSecret` performs zero store calls and leaves the store
unchanged. -/
theorem C3_clone_marked_secret_zero_store_calls
    (secret : Secret) (regs : Registries) (st : KStore)
    (h : (mapLookup secret.annots originKey).isSome = true) :
    allCalls (onAddSecret secret regs st).2.2.2 = [] ∧
    (onAddSecret secret regs st).2.2.1 = st := by
  unfold onAddSecret
  by_cases hl : (mapLookup secret.labels CopierLabel).isSome
  · simp only [hl, if_true]
    rw [copyLoop_skip (mapKeys regs.nslist) secret st h]
    exact ⟨allCalls_nilmap _, rfl⟩
  · simp only [hl, if_false]
    exact ⟨rfl, rfl⟩

/-- Witness for C3 at a concrete clone-marked secret. -/
theorem C3_witness :
    allCalls (onAddSecret cloneMarkedSecret sampleRegs emptyStore).2.2.2 = [] ∧
    (onAddSecret cloneMarkedSecret sampleRegs emptyStore).2.2.1 = emptyStore :=
  C3_clone_marked_secret_zero_store_calls cloneMarkedSecret sampleRegs
    emptyStore (by decide)

/-- C4: for every secret lacking the replication label, `onAddSecret` is a
no-op: zero store calls, both registries and the store unchanged. -/
theorem C4_unlabeled_secret_noop
    (secret : Secret) (regs : Registries) (st : KStore)
    (h : mapLookup secret.labels CopierLabel = none) :
    onAddSecret secret regs st = (secret, regs, st, []) := by
  unfold onAddSecret
  simp [h]

/-- Witness for C4 at a concrete unlabeled secret. -/
theorem C4_witness :
    onAddSecret unlabeledSecret sampleRegs emptyStore =
      (unlabeledSecret, sampleRegs, emptyStore, []) :=
  C4_unlabeled_secret_noop unlabeledSecret sampleRegs emptyStore (by decide)

/-- C5 counterexample: a get failure other than not-found still leads to a
create.  The code branches on `err != nil` (seccop.go:718) without
distinguishing not-found, so on a store whose get fails with another error
a create call is issued — the claim says the attempt would be abandoned
with no create. -/
theorem C5_counterexample_create_on_other_get_error :
    StoreCall.create "production" (buildReplica sampleSecret "production") ∈
      (secretCopy sampleSecret failingStore "production").2.2 := by
  decide

/-- C5 (amended): in `secretCopy` any failure of the get — not-found or
otherwise — leads to the create path: the run issues exactly one get
followed by one create and no update.  Only a successful get can lead to
update or fingerprint no-op. -/
theorem C5_amended_any_get_failure_creates
    (secret : Secret) (st : KStore) (tns : String)
    (horig : mapLookup secret.annots originKey = none)
    (herr : (storeGet st tns secret.name).isErr = true) :
    (secretCopy secret st tns).2.2 =
      [StoreCall.get tns secret.name,
       StoreCall.create tns (buildReplica secret tns)] ∧
    createCount (secretCopy secret st tns).2.2 = 1 ∧
    updateCount (secretCopy secret st tns).2.2 = 0 := by
  rw [secretCopy_err_run secret st tns horig herr]
  simp [createCount, updateCount]

/-- Witness for C5 (amended) at a concrete store with an injected get
error. -/
theorem C5_witness :
    (secretCopy sampleSecret failingStore "production").2.2 =
      [StoreCall.get "production" sampleSecret.name,
       StoreCall.create "production" (buildReplica sampleSecret "production")] ∧
    createCount (secretCopy sampleSecret failingStore "production").2.2 = 1 ∧
    updateCount (secretCopy sampleSecret failingStore "production").2.2 = 0 :=
  C5_amended_any_get_failure_creates sampleSecret failingStore "production"
    (by decide) (by decide)

/-- C6: the claim states that serialization sorts keys so that two payloads
with the same key/value pairs digest equally regardless of iteration order.
The code's `keysToByte` (seccop.go:611-617) serializes in map iteration
order without sorting: the same payload yielded in two different orders
produces two different serialized buffers, so the digests may differ.  The
spec itself flags the missing sort as a defect of the original logic. -/
theorem C6_keysToByte_is_order_dependent :
    payloadUV.Perm payloadVU ∧ keysToByte payloadUV ≠ keysToByte payloadVU := by
  constructor
  · decide
  · decide

/-- C7: the claim promises that the second observation of an unchanged
eligible secret is a guaranteed no-op (get finds the replica, the two
fingerprints are equal, no create or update).  The code cannot guarantee
this: `keysToByte` serializes each map in that map's own iteration order —
which Go randomizes per range loop, and which the replica fetched back by
the get, an independent map object, need not share with the source — so
for any payload with two or more keys the two serializations can differ
for identical content, the keyed digests then differ, and the update of
seccop.go:736 is issued.  Here the second observation of `twoKeySecret`
fetches a replica of identical content whose map yields its keys in the
other order: the fingerprints compare unequal and a spurious update is
issued instead of the claimed no-op.  Same root defect as the missing key
sort of C6, which the spec mandates fixing. -/
theorem C7_second_observation_spurious_update :
    permutedReplica.data.Perm twoKeySecret.data ∧
    secretsDataEqual (buildReplica twoKeySecret "team-a") permutedReplica = false ∧
    allCalls (onAddSecret twoKeySecret sampleRegs replicaStore).2.2.2 =
      [StoreCall.get "team-a" "db-cred",
       StoreCall.update "team-a" (buildReplica twoKeySecret "team-a")] := by
  refine ⟨by decide, by decide, by decide⟩

/-- C8: the replica built by `secretCopy` keeps the source's name, labels
and data, retargets the namespace, clears ResourceVersion, SelfLink and
UID, removes the last-applied provenance annotation, sets the clone-origin
annotation `secret-copier/origin` to `clone`, and leaves every other
annotation equal to the source's. -/
theorem C8_replica_shape (secret : Secret) (tns : String) :
    ((buildReplica secret tns).ns = tns) ∧
    ((buildReplica secret tns).name = secret.name) ∧
    ((buildReplica secret tns).resourceVersion = "") ∧
    ((buildReplica secret tns).selfLink = "") ∧
    ((buildReplica secret tns).uid = "") ∧
    ((buildReplica secret tns).labels = secret.labels) ∧
    ((buildReplica secret tns).data = secret.data) ∧
    (mapLookup (buildReplica secret tns).annots originKey = some "clone") ∧
    (mapLookup (buildReplica secret tns).annots lastAppliedKey = none) ∧
    (∀ k, k ≠ originKey → k ≠ lastAppliedKey →
      mapLookup (buildReplica secret tns).annots k = mapLookup secret.annots k) := by
  refine ⟨rfl, rfl, rfl, rfl, rfl, rfl, rfl, ?_, ?_, ?_⟩
  · simp [buildReplica, cloneAnnots, mapLookup_insert_self]
  · have hne : lastAppliedKey ≠ originKey := by decide
    simp [buildReplica, cloneAnnots, mapLookup_insert_ne _ _ _ _ hne,
      mapLookup_erase_self]
  · intro k hko hkl
    simp [buildReplica, cloneAnnots, mapLookup_insert_ne _ _ _ _ hko,
      mapLookup_erase_ne _ _ _ hkl]

/-- Witness for C8 at a concrete secret carrying a last-applied annotation
and a bystander annotation key. -/
theorem C8_witness :
    mapLookup (buildReplica aliasedSecret "team-a").annots originKey = some "clone" ∧
    mapLookup (buildReplica aliasedSecret "team-a").annots "team" =
      mapLookup aliasedSecret.annots "team" := by
  obtain ⟨-, -, -, -, -, -, -, h8, -, h10⟩ := C8_replica_shape aliasedSecret "team-a"
  exact ⟨h8, h10 "team" (by decide) (by decide)⟩

/-- C9: the secret-registry contract.  `secretListAdd` binds the name to 1
in the namespace's inner set, creating the set when absent;
`secretListDel` removes the name from the set and drops the namespace entry
once the set is empty; consequently an add followed by a remove of the same
(namespace, name), when the namespace held no other names, leaves no entry
for the namespace. -/
theorem C9_secret_registry_contract
    (m : GoMap String (GoMap String Nat)) (ns nm : String) :
    (∃ inner, mapLookup (secretListAdd m ns nm) ns = some inner ∧
      mapLookup inner nm = some 1) ∧
    (∀ inner, mapLookup (secretListDel m ns nm) ns = some inner →
      mapLookup inner nm = none) ∧
    (mapErase ((mapLookup m ns).getD []) nm = [] →
      mapLookup (secretListDel (secretListAdd m ns nm) ns nm) ns = none) := by
  refine ⟨?_, ?_, ?_⟩
  · exact ⟨mapInsert ((mapLookup m ns).getD []) nm 1,
      by simp [secretListAdd, mapLookup_insert_self],
      mapLookup_insert_self _ _ _⟩
  · intro inner hinner
    unfold secretListDel at hinner
    rcases hm : mapLookup m ns with _ | inner0
    · rw [hm] at hinner
      simp only [Option.getD, Option.isSome] at hinner
      simp [mapErase, mapLookup_erase_self] at hinner
    · rw [hm] at hinner
      simp only [Option.getD, Option.isSome, if_true] at hinner
      by_cases hlen : (mapErase inner0 nm).length = 0
      · rw [if_pos hlen] at hinner
        rw [mapLookup_erase_self] at hinner
        exact absurd hinner (by simp)
      · rw [if_neg hlen] at hinner
        rw [mapLookup_insert_self] at hinner
        cases hinner
        exact mapLookup_erase_self _ _
  · intro hempty
    unfold secretListDel secretListAdd
    simp only [mapLookup_insert_self, Option.getD_some, Option.isSome_some,
      if_true, mapErase_insert_self, hempty, List.length_nil]
    simp [mapLookup_erase_self]

/-- Witness for C9 at the empty registry. -/
theorem C9_witness :
    (∃ inner,
      mapLookup (secretListAdd ([] : GoMap String (GoMap String Nat))
        "team-a" "db-cred") "team-a" = some inner ∧
      mapLookup inner "db-cred" = some 1) ∧
    mapLookup (secretListDel (secretListAdd
        ([] : GoMap String (GoMap String Nat)) "team-a" "db-cred")
      "team-a" "db-cred") "team-a" = none := by
  obtain ⟨h1, -, h3⟩ :=
    C9_secret_registry_contract ([] : GoMap String (GoMap String Nat))
      "team-a" "db-cred"
  exact ⟨h1, h3 (by decide)⟩

/-- C10: the claim states every internal mutation of the two registries is
serialized via a dedicated read/write lock per registry.  The handlers do
not do this: `onAddSecret`, `onAddNamespace` and `onDelSecret` mutate their
registry with no lock acquired, and `onDelNamespace` performs its delete
holding only the read lock — no trace holds the write lock across its
mutation. -/
theorem C10_registry_mutations_not_write_locked :
    mutationsWriteLocked onAddSecretSyncTrace = false ∧
    mutationsWriteLocked onAddNamespaceSyncTrace = false ∧
    mutationsWriteLocked onDelSecretSyncTrace = false ∧
    mutationsWriteLocked onDelNamespaceSyncTrace = false := by
  decide
